import Mathlib

/-!
Verification of the persistence layer in src/server/mediapublic/models.py.

The database state of a table is embedded as a Lean list of rows, in insertion
order. UUIDs are modelled as natural numbers; the value of uuid4() is passed to
each operation that calls it as an explicit "fresh" argument. Each operation of
the source is translated to a Lean function from the table state (plus its
arguments) to its Python return value together with the table state after the
enclosing transaction. Python exceptions are modelled by the PyExc type and
Except: an operation that can raise returns an Except value. Constraints that
the relational schema enforces (primary keys, UNIQUE columns) are modelled as
checks performed where the corresponding SQL statement would be executed; a
violated constraint yields IntegrityError and, because the transaction manager
aborts, an unchanged table.
-/

namespace Mediapublic

/-- UUID primary keys, modelled as naturals. -/
abbrev UUID := Nat

/-- The Python exceptions that appear in models.py: ValueError and
StatementError (which wraps an original exception, its "orig" field) from the
get_by_id handler, IntegrityError from constraint violations, TypeError from
calling a method with a wrong number of arguments, NameError from evaluating an
undefined name, AttributeError from attribute access on None. -/
inductive PyExc where
  | valueError : PyExc
  | integrityError : PyExc
  | typeError : PyExc
  | nameError (missing : String) : PyExc
  | attributeError : PyExc
  | statementError (orig : PyExc) : PyExc
deriving DecidableEq, Repr

/-- A row of a table whose non-id columns have type alpha: every model class
has a UUID primary key column "id" plus its own columns. -/
structure Row (α : Type) where
  id : UUID
  fields : α
deriving DecidableEq, Repr

namespace CreationMixin

/-- CreationMixin.add (models.py lines 38-46): construct the record from the
keyword arguments, assign uuid4() as id when the constructor left it None,
insert and commit. The commit enforces the primary-key constraint: inserting a
duplicate id raises IntegrityError and the transaction aborts. idArg is the id
the caller passed (none when absent or None), fresh is the uuid4() value. -/
def add (tbl : List (Row α)) (idArg : Option UUID) (flds : α) (fresh : UUID) :
    Except PyExc (Row α × List (Row α)) :=
  let theId := match idArg with
    | some i => i
    | none => fresh
  let thing : Row α := ⟨theId, flds⟩
  if tbl.any (fun r => r.id == theId) then
    Except.error PyExc.integrityError
  else
    Except.ok (thing, tbl ++ [thing])

/-- CreationMixin.get_by_id (models.py lines 56-69), successful-query path:
SELECT ... WHERE id = :id, then first(), i.e. the first matching row or None. -/
def get_by_id (tbl : List (Row α)) (i : UUID) : Option (Row α) :=
  tbl.find? (fun r => r.id == i)

/-- The except clause of CreationMixin.get_by_id (models.py lines 65-68): a
StatementError whose orig is a ValueError is re-raised as that ValueError.
For any other StatementError the handler executes six.reraise with the result
of sys.exc_info(), but models.py never imports sys, so evaluating the name sys
raises NameError instead. Exceptions other than StatementError are not caught
and propagate unchanged. -/
def get_by_id_onExc (e : PyExc) : PyExc :=
  match e with
  | PyExc.statementError orig =>
      if orig = PyExc.valueError then orig else PyExc.nameError "sys"
  | e2 => e2

/-- CreationMixin.get_by_id including its exception behaviour: queryExc is none
when the underlying query succeeds and some e when the query raises e. -/
def get_by_id_run (tbl : List (Row α)) (i : UUID) (queryExc : Option PyExc) :
    Except PyExc (Option (Row α)) :=
  match queryExc with
  | none => Except.ok (get_by_id tbl i)
  | some e => Except.error (get_by_id_onExc e)

/-- CreationMixin.delete_by_id (models.py lines 71-78): fetch by id; when a row
was found, delete that row object and commit; return the fetched row (None when
absent). -/
def delete_by_id (tbl : List (Row α)) (i : UUID) :
    Option (Row α) × List (Row α) :=
  match get_by_id tbl i with
  | none => (none, tbl)
  | some t => (some t, tbl.eraseP (fun r => r.id == i))

end CreationMixin

/-- Helper: find? over an append whose first part contains no match. -/
theorem find_append_of_none {α : Type} (p : α → Bool) (l1 l2 : List α)
    (h : l1.find? p = none) : (l1 ++ l2).find? p = l2.find? p := by
  induction l1 with
  | nil => simp
  | cons a l ih =>
    rw [List.find?_cons] at h
    rcases hpa : p a with _ | _
    · rw [List.cons_append, List.find?_cons, hpa]
      exact ih (by rwa [hpa] at h)
    · rw [hpa] at h
      exact absurd h (by simp)

/-- C1: for every record type and field assignment, when add succeeds the
record it returns carries exactly the fields that were passed, and get_by_id at
the returned record's id finds that record. -/
theorem claim1_add_then_get_by_id {α : Type} (tbl : List (Row α))
    (idArg : Option UUID) (flds : α) (fresh : UUID)
    (thing : Row α) (tbl2 : List (Row α))
    (h : CreationMixin.add tbl idArg flds fresh = Except.ok (thing, tbl2)) :
    CreationMixin.get_by_id tbl2 thing.id = some thing ∧ thing.fields = flds := by
  unfold CreationMixin.add at h
  simp only [] at h
  split at h
  · exact absurd h (by simp)
  · rename_i hcond
    simp only [Except.ok.injEq, Prod.mk.injEq] at h
    obtain ⟨h1, h2⟩ := h
    subst h1
    subst h2
    refine ⟨?_, rfl⟩
    unfold CreationMixin.get_by_id
    rw [find_append_of_none]
    · simp
    · rw [List.find?_eq_none]
      intro x hx
      intro hpx
      exact hcond (List.any_eq_true.mpr ⟨x, hx, hpx⟩)

/-- Witness for C1 at a concrete input. -/
theorem claim1_witness :
    CreationMixin.get_by_id [Row.mk 7 "x"] (7 : UUID) = some (Row.mk 7 "x") ∧
      (Row.mk 7 "x").fields = "x" :=
  claim1_add_then_get_by_id ([] : List (Row String)) none "x" 7
    (Row.mk 7 "x") [Row.mk 7 "x"] (by rfl)

/-- C9: when add succeeds, the stored record's id is the caller-supplied id
when one was given and the fresh uuid4() value otherwise, its fields are the
passed fields, and the returned record is exactly the one appended to the
table. -/
theorem claim9_add_id_assignment {α : Type} (tbl : List (Row α))
    (idArg : Option UUID) (flds : α) (fresh : UUID)
    (thing : Row α) (tbl2 : List (Row α))
    (h : CreationMixin.add tbl idArg flds fresh = Except.ok (thing, tbl2)) :
    (idArg = none → thing.id = fresh) ∧
      (∀ i, idArg = some i → thing.id = i) ∧
      thing.fields = flds ∧ tbl2 = tbl ++ [thing] := by
  unfold CreationMixin.add at h
  simp only [] at h
  split at h
  · exact absurd h (by simp)
  · simp only [Except.ok.injEq, Prod.mk.injEq] at h
    obtain ⟨h1, h2⟩ := h
    subst h1
    subst h2
    refine ⟨?_, ?_, rfl, rfl⟩
    · intro hnone; subst hnone; rfl
    · intro i hsome; subst hsome; rfl

/-- Witness for C9 at concrete inputs, exercising both the absent-id and the
supplied-id cases. -/
theorem claim9_witness :
    ((none : Option UUID) = none → (Row.mk 5 "a").id = 5) ∧
      (∀ i, (none : Option UUID) = some i → (Row.mk 5 "a").id = i) ∧
      (Row.mk 5 "a").fields = "a" ∧
      [Row.mk 5 "a"] = ([] : List (Row String)) ++ [Row.mk 5 "a"] :=
  claim9_add_id_assignment [] none "a" 5 (Row.mk 5 "a") [Row.mk 5 "a"] (by rfl)

/-- C5 (code bug): when the query inside get_by_id raises a StatementError
whose orig is a ValueError, the ValueError is re-raised unwrapped, as the claim
says; but when the query raises a StatementError whose orig is any other
exception (the failing input: a StatementError wrapping an IntegrityError),
the handler raises NameError for the undefined name sys instead of re-raising
the StatementError, because models.py calls sys.exc_info() without ever
importing sys. Exceptions other than StatementError do propagate unchanged. -/
theorem claim5_get_by_id_error_translation :
    CreationMixin.get_by_id_run ([] : List (Row String)) 0
        (some (PyExc.statementError PyExc.valueError)) =
      Except.error PyExc.valueError ∧
    CreationMixin.get_by_id_run ([] : List (Row String)) 0
        (some (PyExc.statementError PyExc.integrityError)) =
      Except.error (PyExc.nameError "sys") ∧
    CreationMixin.get_by_id_run ([] : List (Row String)) 0
        (some (PyExc.statementError PyExc.integrityError)) ≠
      Except.error (PyExc.statementError PyExc.integrityError) ∧
    CreationMixin.get_by_id_run ([] : List (Row String)) 0
        (some PyExc.typeError) =
      Except.error PyExc.typeError := by
  refine ⟨rfl, rfl, ?_, rfl⟩
  simp [CreationMixin.get_by_id_run, CreationMixin.get_by_id_onExc]

/-- Helper: after erasing the first row with a given id from a table whose ids
are pairwise distinct, no row with that id remains. -/
theorem find_eraseP_none {α : Type} (tbl : List (Row α)) (i : UUID)
    (hnd : (tbl.map Row.id).Nodup) :
    (tbl.eraseP (fun r => r.id == i)).find? (fun r => r.id == i) = none := by
  induction tbl with
  | nil => rfl
  | cons a l ih =>
    rw [List.map_cons, List.nodup_cons] at hnd
    obtain ⟨hna, hnl⟩ := hnd
    rcases hpa : (a.id == i : Bool) with _ | _
    · have herase : List.eraseP (fun r => r.id == i) (a :: l) =
          a :: List.eraseP (fun r => r.id == i) l := by
        simp [List.eraseP_cons, hpa]
      rw [herase, List.find?_cons, hpa]
      exact ih hnl
    · have herase : List.eraseP (fun r => r.id == i) (a :: l) = l := by
        simp [List.eraseP_cons, hpa]
      rw [herase, List.find?_eq_none]
      intro x hx hpx
      have hxid : x.id = i := by simpa using hpx
      have haid : a.id = i := by simpa using hpa
      exact hna (by rw [haid, ← hxid]; exact List.mem_map_of_mem Row.id hx)

/-- C4: for any record type and any id of an existing row (in a table whose
ids are pairwise distinct, as the primary key guarantees), delete_by_id
returns the deleted record, a subsequent get_by_id of that id returns none,
and the remaining table holds exactly the other rows. -/
theorem claim4_delete_by_id {α : Type} (tbl : List (Row α)) (i : UUID)
    (t : Row α) (h : CreationMixin.get_by_id tbl i = some t)
    (hnd : (tbl.map Row.id).Nodup) :
    (CreationMixin.delete_by_id tbl i).1 = some t ∧
      CreationMixin.get_by_id (CreationMixin.delete_by_id tbl i).2 i = none ∧
      ∀ r : Row α,
        r ∈ (CreationMixin.delete_by_id tbl i).2 ↔ r ∈ tbl ∧ r.id ≠ i := by
  unfold CreationMixin.delete_by_id
  rw [h]
  refine ⟨rfl, ?_, ?_⟩
  · exact find_eraseP_none tbl i hnd
  · intro r
    constructor
    · intro hr
      refine ⟨List.mem_of_mem_eraseP hr, ?_⟩
      intro hid
      have hnone := find_eraseP_none tbl i hnd
      rw [List.find?_eq_none] at hnone
      exact hnone r hr (by simp [hid])
    · intro hr
      obtain ⟨hmem, hid⟩ := hr
      exact (List.mem_eraseP_of_neg (by simp [hid])).mpr hmem

/-- Witness for C4 at a concrete two-row table. -/
theorem claim4_witness :
    (CreationMixin.delete_by_id [Row.mk 1 "a", Row.mk 2 "b"] 1).1 =
        some (Row.mk 1 "a") ∧
      CreationMixin.get_by_id
          (CreationMixin.delete_by_id [Row.mk 1 "a", Row.mk 2 "b"] 1).2 1 =
        none ∧
      ∀ r : Row String,
        r ∈ (CreationMixin.delete_by_id [Row.mk 1 "a", Row.mk 2 "b"] 1).2 ↔
          r ∈ [Row.mk 1 "a", Row.mk 2 "b"] ∧ r.id ≠ 1 :=
  claim4_delete_by_id [Row.mk 1 "a", Row.mk 2 "b"] 1 (Row.mk 1 "a")
    (by rfl) (by decide)

/-! For update_by_id the record fields are modelled as a Python attribute
mapping: an association list from attribute name to value, with getattr and
setattr. The set of keys of cls committed by the class definition (the Python
expression set(cls.dict)) is passed as the keys argument. -/

/-- Attribute names. -/
abbrev AttrKey := String

/-- Attribute values. -/
abbrev AttrVal := String

/-- The attribute mapping of a Python object. -/
abbrev Attrs := List (AttrKey × AttrVal)

/-- Python getattr: the value stored under an attribute name, if any. -/
def getattr (f : Attrs) (k : AttrKey) : Option AttrVal :=
  (f.find? (fun kv => kv.1 == k)).map (fun kv => kv.2)

/-- Python setattr: store a value under an attribute name, replacing any
previous value. -/
def setattr : Attrs → AttrKey → AttrVal → Attrs
  | [], k, v => [(k, v)]
  | kv :: rest, k, v =>
      if kv.1 == k then (k, v) :: rest else kv :: setattr rest k v

/-- One iteration of the loop in CreationMixin.update_by_id: setattr the value
when the key is among the class keys, otherwise skip it. -/
def updateStep (keys : List AttrKey) (f : Attrs) (kv : AttrKey × AttrVal) :
    Attrs :=
  if keys.contains kv.1 then setattr f kv.1 kv.2 else f

/-- CreationMixin.update_by_id (models.py lines 80-91): fetch the row by id;
when found, for each keyword argument whose key is in set(cls.dict) setattr it
on the row, then add and commit; return the fetched (now updated) row, or None
when absent. -/
def CreationMixin.update_by_id (keys : List AttrKey) (tbl : List (Row Attrs))
    (i : UUID) (kwargs : List (AttrKey × AttrVal)) :
    Option (Row Attrs) × List (Row Attrs) :=
  match CreationMixin.get_by_id tbl i with
  | none => (none, tbl)
  | some t =>
      let t2 : Row Attrs := ⟨t.id, kwargs.foldl (updateStep keys) t.fields⟩
      (some t2, tbl.map (fun r => if r.id == i then t2 else r))

/-- Helper: getattr over a cons reads the head value when the head key
matches, and the tail otherwise. -/
theorem getattr_cons (kv : AttrKey × AttrVal) (rest : Attrs) (k2 : AttrKey) :
    getattr (kv :: rest) k2 =
      if kv.1 = k2 then some kv.2 else getattr rest k2 := by
  by_cases h : kv.1 = k2
  · simp [getattr, List.find?_cons, h]
  · simp [getattr, List.find?_cons, h]

/-- Helper: getattr after setattr reads the new value at the written key and
the old value elsewhere. -/
theorem getattr_setattr (f : Attrs) (k : AttrKey) (v : AttrVal) (k2 : AttrKey) :
    getattr (setattr f k v) k2 = if k = k2 then some v else getattr f k2 := by
  induction f with
  | nil =>
    show getattr [(k, v)] k2 = _
    rw [getattr_cons]
  | cons kv rest ih =>
    by_cases hkv : kv.1 = k
    · have hs : setattr (kv :: rest) k v = (k, v) :: rest := by
        simp [setattr, hkv]
      rw [hs, getattr_cons, getattr_cons]
      by_cases hk : k = k2
      · simp [hk]
      · have hne : ¬ kv.1 = k2 := by rw [hkv]; exact hk
        simp [hk, hne]
    · have hs : setattr (kv :: rest) k v = kv :: setattr rest k v := by
        simp [setattr, hkv]
      rw [hs, getattr_cons, getattr_cons]
      by_cases hk2 : kv.1 = k2
      · have hne : ¬ k = k2 := fun he => hkv (hk2.trans he.symm)
        simp [hk2, hne]
      · simp only [if_neg hk2]
        exact ih

/-- Helper: find? fails on a list of pairs none of whose keys is k. -/
theorem find_key_none (l : List (AttrKey × AttrVal)) (k : AttrKey)
    (h : k ∉ l.map Prod.fst) : l.find? (fun kv => kv.1 == k) = none := by
  rw [List.find?_eq_none]
  intro kv hkv hpkv
  exact h (by
    have : kv.1 = k := by simpa using hpkv
    rw [← this]
    exact List.mem_map_of_mem Prod.fst hkv)

/-- Helper: the update loop of update_by_id, read back attribute-wise. A key
that occurs in kwargs (which has no duplicate keys, as a Python dict) and is
among the class keys reads the kwargs value; every other key reads its old
value. -/
theorem getattr_foldl_updateStep (keys : List AttrKey)
    (kwargs : List (AttrKey × AttrVal)) (f : Attrs) (k : AttrKey)
    (hkw : (kwargs.map Prod.fst).Nodup) :
    getattr (kwargs.foldl (updateStep keys) f) k =
      match kwargs.find? (fun kv => kv.1 == k) with
      | some kv => if keys.contains k then some kv.2 else getattr f k
      | none => getattr f k := by
  induction kwargs generalizing f with
  | nil => rfl
  | cons kv rest ih =>
    rw [List.map_cons, List.nodup_cons] at hkw
    obtain ⟨hk1, hrest⟩ := hkw
    rw [List.foldl_cons]
    by_cases hkvk : kv.1 = k
    · have hfind : (kv :: rest).find? (fun kv2 => kv2.1 == k) = some kv := by
        simp [List.find?_cons, hkvk]
      rw [hfind]
      have hnone : rest.find? (fun kv2 => kv2.1 == k) = none := by
        apply find_key_none
        rw [← hkvk]
        exact hk1
      rw [ih (updateStep keys f kv) hrest, hnone]
      show getattr (updateStep keys f kv) k =
        if keys.contains k = true then some kv.2 else getattr f k
      unfold updateStep
      rw [hkvk]
      by_cases hc : keys.contains k = true
      · rw [if_pos hc, if_pos hc, getattr_setattr, if_pos rfl]
      · rw [if_neg hc, if_neg hc]
    · have hfind : (kv :: rest).find? (fun kv2 => kv2.1 == k) =
          rest.find? (fun kv2 => kv2.1 == k) := by
        simp [List.find?_cons, hkvk]
      rw [hfind, ih (updateStep keys f kv) hrest]
      have hstep : getattr (updateStep keys f kv) k = getattr f k := by
        unfold updateStep
        by_cases hc : keys.contains kv.1 = true
        · rw [if_pos hc, getattr_setattr, if_neg hkvk]
        · rw [if_neg hc]
      rcases hrf : rest.find? (fun kv2 => kv2.1 == k) with _ | kv2
      · rw [hrf]
        exact hstep
      · rw [hrf, hstep]

/-- Helper: a found row satisfies the find? predicate. -/
theorem find_id_eq {α : Type} (tbl : List (Row α)) (i : UUID) (t : Row α)
    (h : tbl.find? (fun r => r.id == i) = some t) : t.id = i := by
  have := List.find?_some h
  simpa using this

/-- Helper: replacing the rows with id i by a row t2 whose id is i commutes
with find? by id. -/
theorem find_map_replace {α : Type} (tbl : List (Row α)) (i : UUID)
    (t t2 : Row α) (h : tbl.find? (fun r => r.id == i) = some t)
    (h2 : t2.id = i) :
    (tbl.map (fun r => if r.id == i then t2 else r)).find?
      (fun r => r.id == i) = some t2 := by
  induction tbl with
  | nil => simp at h
  | cons a l ih =>
    rw [List.find?_cons] at h
    rw [List.map_cons, List.find?_cons]
    by_cases hpa : a.id = i
    · have hb : (a.id == i : Bool) = true := by simp [hpa]
      simp [hb, h2]
    · have hb : (a.id == i : Bool) = false := by simp [hpa]
      simp only [hb] at h
      have hmap : (if (a.id == i : Bool) then t2 else a) = a := by simp [hb]
      rw [hmap, hb]
      exact ih h

/-- C3: for any id of an existing row (ids pairwise distinct, kwargs keys
pairwise distinct as in a Python dict), update_by_id returns an updated record
with the same id, stored in place of the old row: a key listed in kwargs and
among the class attribute keys reads the kwargs value, a key not in kwargs or
not among the class keys reads its old value, and every row with a different
id is untouched. -/
theorem claim3_update_by_id (keys : List AttrKey) (tbl : List (Row Attrs))
    (i : UUID) (kwargs : List (AttrKey × AttrVal)) (t : Row Attrs)
    (h : CreationMixin.get_by_id tbl i = some t)
    (hkw : (kwargs.map Prod.fst).Nodup) :
    ∃ t2 : Row Attrs,
      (CreationMixin.update_by_id keys tbl i kwargs).1 = some t2 ∧
      t2.id = t.id ∧
      (∀ k, keys.contains k = false →
        getattr t2.fields k = getattr t.fields k) ∧
      (∀ k, kwargs.find? (fun kv => kv.1 == k) = none →
        getattr t2.fields k = getattr t.fields k) ∧
      (∀ k v, (k, v) ∈ kwargs → keys.contains k = true →
        getattr t2.fields k = some v) ∧
      CreationMixin.get_by_id
        (CreationMixin.update_by_id keys tbl i kwargs).2 i = some t2 ∧
      (∀ r ∈ tbl, r.id ≠ i →
        r ∈ (CreationMixin.update_by_id keys tbl i kwargs).2) ∧
      (∀ r ∈ (CreationMixin.update_by_id keys tbl i kwargs).2,
        r = t2 ∨ (r ∈ tbl ∧ r.id ≠ i)) := by
  refine ⟨⟨t.id, kwargs.foldl (updateStep keys) t.fields⟩, ?_, rfl, ?_, ?_, ?_, ?_, ?_, ?_⟩
  · unfold CreationMixin.update_by_id
    rw [h]
  · intro k hck
    rw [getattr_foldl_updateStep keys kwargs t.fields k hkw]
    rcases hfind : kwargs.find? (fun kv => kv.1 == k) with _ | kv
    · rw [hfind]
    · rw [hfind]
      show (if keys.contains k = true then some kv.2 else getattr t.fields k) =
        getattr t.fields k
      rw [if_neg (by intro hc; rw [hck] at hc; exact Bool.false_ne_true hc)]
  · intro k hfind
    rw [getattr_foldl_updateStep keys kwargs t.fields k hkw, hfind]
  · intro k v hmem hck
    rw [getattr_foldl_updateStep keys kwargs t.fields k hkw]
    have hfind : kwargs.find? (fun kv => kv.1 == k) = some (k, v) := by
      induction kwargs with
      | nil => simp at hmem
      | cons kv0 rest ih =>
        rw [List.map_cons, List.nodup_cons] at hkw
        obtain ⟨hk1, hrest⟩ := hkw
        rw [List.mem_cons] at hmem
        rw [List.find?_cons]
        rcases hmem with hmem | hmem
        · rw [← hmem]
          simp
        · by_cases hp : kv0.1 = k
          · exfalso
            apply hk1
            rw [hp]
            exact List.mem_map_of_mem Prod.fst hmem
          · have hb : (kv0.1 == k : Bool) = false := by simp [hp]
            rw [hb]
            exact ih hrest hmem
    rw [hfind]
    show (if keys.contains k = true then some v else getattr t.fields k) = some v
    rw [if_pos hck]
  · unfold CreationMixin.update_by_id
    rw [h]
    unfold CreationMixin.get_by_id at h ⊢
    exact find_map_replace tbl i t _ h (find_id_eq tbl i t h)
  · intro r hr hrid
    unfold CreationMixin.update_by_id
    rw [h]
    simp only []
    have : r = (fun r0 : Row Attrs =>
        if r0.id == i then ⟨t.id, kwargs.foldl (updateStep keys) t.fields⟩
        else r0) r := by
      simp [hrid]
    rw [this]
    exact List.mem_map_of_mem _ hr
  · intro r hr
    unfold CreationMixin.update_by_id at hr
    rw [h] at hr
    simp only [] at hr
    obtain ⟨r0, hr0, hr0eq⟩ := List.mem_map.mp hr
    by_cases hp : r0.id = i
    · left
      have hb : (r0.id == i : Bool) = true := by simp [hp]
      rw [if_pos hb] at hr0eq
      exact hr0eq.symm
    · right
      have hb : (r0.id == i : Bool) = false := by simp [hp]
      rw [if_neg (by intro hc; rw [hb] at hc; exact Bool.false_ne_true hc)]
        at hr0eq
      subst hr0eq
      exact ⟨hr0, hp⟩

/-- Witness for C3 at a concrete table, class key set and kwargs. -/
theorem claim3_witness :
    ∃ t2 : Row Attrs,
      (CreationMixin.update_by_id ["name", "value"]
          [Row.mk 1 [("name", "x"), ("value", "y")]] 1
          [("name", "n"), ("bogus", "b")]).1 = some t2 ∧
      t2.id = (Row.mk 1 [("name", "x"), ("value", "y")] : Row Attrs).id ∧
      (∀ k, (["name", "value"] : List AttrKey).contains k = false →
        getattr t2.fields k = getattr [("name", "x"), ("value", "y")] k) ∧
      (∀ k, ([("name", "n"), ("bogus", "b")] : List (AttrKey × AttrVal)).find?
          (fun kv => kv.1 == k) = none →
        getattr t2.fields k = getattr [("name", "x"), ("value", "y")] k) ∧
      (∀ k v, (k, v) ∈ ([("name", "n"), ("bogus", "b")] :
            List (AttrKey × AttrVal)) →
        (["name", "value"] : List AttrKey).contains k = true →
        getattr t2.fields k = some v) ∧
      CreationMixin.get_by_id
        (CreationMixin.update_by_id ["name", "value"]
          [Row.mk 1 [("name", "x"), ("value", "y")]] 1
          [("name", "n"), ("bogus", "b")]).2 1 = some t2 ∧
      (∀ r ∈ [Row.mk 1 [("name", "x"), ("value", "y")]], r.id ≠ 1 →
        r ∈ (CreationMixin.update_by_id ["name", "value"]
          [Row.mk 1 [("name", "x"), ("value", "y")]] 1
          [("name", "n"), ("bogus", "b")]).2) ∧
      (∀ r ∈ (CreationMixin.update_by_id ["name", "value"]
          [Row.mk 1 [("name", "x"), ("value", "y")]] 1
          [("name", "n"), ("bogus", "b")]).2,
        r = t2 ∨ (r ∈ [Row.mk 1 [("name", "x"), ("value", "y")]] ∧
          r.id ≠ 1)) :=
  claim3_update_by_id ["name", "value"]
    [Row.mk 1 [("name", "x"), ("value", "y")]] 1
    [("name", "n"), ("bogus", "b")]
    (Row.mk 1 [("name", "x"), ("value", "y")]) (by rfl) (by decide)

/-! Comments (models.py lines 192-267): columns subject, contents, a required
parent comment and author, and five optional foreign keys, plus five filtered
lookups. Timestamps are not modelled. -/

/-- A row of the comments table. -/
structure CommentRow where
  id : UUID
  subject : String
  contents : String
  parent_comment_id : UUID
  author_id : UUID
  organization_id : Option UUID
  people_id : Option UUID
  recording_id : Option UUID
  howto_id : Option UUID
  blog_id : Option UUID
deriving DecidableEq, Repr

/-- Comments.get_by_organization_id (models.py lines 219-227): SELECT the
comments whose organization_id equals the given id, inside a read-only
transaction; the pair is (query result, table after the call). -/
def Comments.get_by_organization_id (tbl : List CommentRow) (i : UUID) :
    List CommentRow × List CommentRow :=
  (tbl.filter (fun c => c.organization_id == some i), tbl)

/-- Comments.get_by_people_id (models.py lines 229-237). -/
def Comments.get_by_people_id (tbl : List CommentRow) (i : UUID) :
    List CommentRow × List CommentRow :=
  (tbl.filter (fun c => c.people_id == some i), tbl)

/-- Comments.get_by_recording_id (models.py lines 239-247). -/
def Comments.get_by_recording_id (tbl : List CommentRow) (i : UUID) :
    List CommentRow × List CommentRow :=
  (tbl.filter (fun c => c.recording_id == some i), tbl)

/-- Comments.get_by_howto_id (models.py lines 249-257). -/
def Comments.get_by_howto_id (tbl : List CommentRow) (i : UUID) :
    List CommentRow × List CommentRow :=
  (tbl.filter (fun c => c.howto_id == some i), tbl)

/-- Comments.get_by_blog_id (models.py lines 259-267). -/
def Comments.get_by_blog_id (tbl : List CommentRow) (i : UUID) :
    List CommentRow × List CommentRow :=
  (tbl.filter (fun c => c.blog_id == some i), tbl)

/-- Helper: a filter by one foreign-key column returns a sublist holding
exactly the rows whose column equals the id. -/
theorem filter_fk_spec (tbl : List CommentRow) (g : CommentRow → Option UUID)
    (i : UUID) :
    List.Sublist (tbl.filter (fun c => g c == some i)) tbl ∧
      ∀ c, c ∈ tbl.filter (fun c => g c == some i) ↔
        c ∈ tbl ∧ g c = some i := by
  refine ⟨List.filter_sublist tbl, ?_⟩
  intro c
  rw [List.mem_filter]
  constructor
  · rintro ⟨hm, hc⟩
    exact ⟨hm, by simpa using hc⟩
  · rintro ⟨hm, hc⟩
    exact ⟨hm, by simp [hc]⟩

/-- C6: each of the five Comments lookups leaves the stored table unchanged
and returns exactly the stored comments whose corresponding foreign-key column
equals the given id. -/
theorem claim6_comments_filters (tbl : List CommentRow) (i : UUID) :
    ((Comments.get_by_organization_id tbl i).2 = tbl ∧
      List.Sublist (Comments.get_by_organization_id tbl i).1 tbl ∧
      ∀ c, c ∈ (Comments.get_by_organization_id tbl i).1 ↔
        c ∈ tbl ∧ c.organization_id = some i) ∧
    ((Comments.get_by_people_id tbl i).2 = tbl ∧
      List.Sublist (Comments.get_by_people_id tbl i).1 tbl ∧
      ∀ c, c ∈ (Comments.get_by_people_id tbl i).1 ↔
        c ∈ tbl ∧ c.people_id = some i) ∧
    ((Comments.get_by_recording_id tbl i).2 = tbl ∧
      List.Sublist (Comments.get_by_recording_id tbl i).1 tbl ∧
      ∀ c, c ∈ (Comments.get_by_recording_id tbl i).1 ↔
        c ∈ tbl ∧ c.recording_id = some i) ∧
    ((Comments.get_by_howto_id tbl i).2 = tbl ∧
      List.Sublist (Comments.get_by_howto_id tbl i).1 tbl ∧
      ∀ c, c ∈ (Comments.get_by_howto_id tbl i).1 ↔
        c ∈ tbl ∧ c.howto_id = some i) ∧
    ((Comments.get_by_blog_id tbl i).2 = tbl ∧
      List.Sublist (Comments.get_by_blog_id tbl i).1 tbl ∧
      ∀ c, c ∈ (Comments.get_by_blog_id tbl i).1 ↔
        c ∈ tbl ∧ c.blog_id = some i) :=
  ⟨⟨rfl, (filter_fk_spec tbl (fun c => c.organization_id) i).1,
      (filter_fk_spec tbl (fun c => c.organization_id) i).2⟩,
    ⟨rfl, (filter_fk_spec tbl (fun c => c.people_id) i).1,
      (filter_fk_spec tbl (fun c => c.people_id) i).2⟩,
    ⟨rfl, (filter_fk_spec tbl (fun c => c.recording_id) i).1,
      (filter_fk_spec tbl (fun c => c.recording_id) i).2⟩,
    ⟨rfl, (filter_fk_spec tbl (fun c => c.howto_id) i).1,
      (filter_fk_spec tbl (fun c => c.howto_id) i).2⟩,
    ⟨rfl, (filter_fk_spec tbl (fun c => c.blog_id) i).1,
      (filter_fk_spec tbl (fun c => c.blog_id) i).2⟩⟩

/-! Playlists, Recordings and PlaylistAssignments (models.py lines 310-405).
PlaylistAssignments is the join table of the many-to-many relation between
playlists and recordings. -/

/-- A row of the recordings table (timestamps other than recorded_datetime are
not modelled). -/
structure RecordingRow where
  id : UUID
  title : String
  url : String
  recorded_datetime : Option String
  organization_id : Option UUID
deriving DecidableEq, Repr

/-- A row of the playlist_assignments table. -/
structure PlaylistAssignmentRow where
  id : UUID
  playlist_id : Option UUID
  recording_id : UUID
deriving DecidableEq, Repr

/-- A row of the playlists table. -/
structure PlaylistRow where
  id : UUID
  author_id : Option UUID
  title : String
  description : String
deriving DecidableEq, Repr

/-- Python str() on an optional value: str(None) is the string None. -/
def pyStr (o : Option String) : String :=
  match o with
  | some s => s
  | none => "None"

/-- The plain mapping returned by Recordings.to_dict (models.py lines
480-488); the creation_datetime entry of the shared to_dict is not
modelled. -/
structure RecDict where
  id : String
  title : String
  url : String
  recorded_datetime : String
  organization_id : Option UUID
deriving DecidableEq, Repr

/-- Recordings.to_dict (models.py lines 480-488). -/
def Recordings.to_dict (r : RecordingRow) : RecDict :=
  ⟨toString r.id, r.title, r.url, pyStr r.recorded_datetime, r.organization_id⟩

/-- Playlists.get_recordings_by_playlist_id (models.py lines 377-391):
SELECT recordings JOIN playlist_assignments (the join condition inferred from
the foreign key: playlist_assignments.recording_id = recordings.id) filtered
on playlist_assignments.playlist_id = id. The query yields one output row per
matching (recording, assignment) pair. The None and non-list checks after the
query are dead code: all() always returns a list. -/
def Playlists.get_recordings_by_playlist_id (recs : List RecordingRow)
    (asgns : List PlaylistAssignmentRow) (i : UUID) : List RecordingRow :=
  recs.flatMap (fun r =>
    (asgns.filter
      (fun a => a.recording_id == r.id && a.playlist_id == some i)).map
      (fun _ => r))

/-- The plain mapping returned by Playlists.to_dict (models.py lines 393-405);
the creation_datetime entry of the shared to_dict is not modelled. -/
structure PlaylistDict where
  id : String
  author_id : Option UUID
  title : String
  recordings : List RecDict
deriving DecidableEq, Repr

/-- Playlists.to_dict (models.py lines 393-405): id and author_id and title,
plus the serializations of the recordings fetched through
get_recordings_by_playlist_id at this playlist's id. -/
def Playlists.to_dict (recs : List RecordingRow)
    (asgns : List PlaylistAssignmentRow) (p : PlaylistRow) : PlaylistDict :=
  ⟨toString p.id, p.author_id, p.title,
    (Playlists.get_recordings_by_playlist_id recs asgns p.id).map
      Recordings.to_dict⟩

/-- C7: a recording is in the result of get_recordings_by_playlist_id exactly
when some stored assignment links the playlist id to its id, and
Playlists.to_dict embeds under its recordings key the serializations of
exactly those recordings. -/
theorem claim7_playlist_recordings (recs : List RecordingRow)
    (asgns : List PlaylistAssignmentRow) (i : UUID) (p : PlaylistRow) :
    (∀ r, r ∈ Playlists.get_recordings_by_playlist_id recs asgns i ↔
      r ∈ recs ∧ ∃ a ∈ asgns,
        a.playlist_id = some i ∧ a.recording_id = r.id) ∧
    (∀ d, d ∈ (Playlists.to_dict recs asgns p).recordings ↔
      ∃ r, (r ∈ recs ∧ ∃ a ∈ asgns,
        a.playlist_id = some p.id ∧ a.recording_id = r.id) ∧
        d = Recordings.to_dict r) := by
  have hmain : ∀ j r, r ∈ Playlists.get_recordings_by_playlist_id recs asgns j ↔
      r ∈ recs ∧ ∃ a ∈ asgns,
        a.playlist_id = some j ∧ a.recording_id = r.id := by
    intro j r
    unfold Playlists.get_recordings_by_playlist_id
    rw [List.mem_flatMap]
    constructor
    · rintro ⟨r0, hr0, hmem⟩
      obtain ⟨a, ha, haeq⟩ := List.mem_map.mp hmem
      obtain ⟨haa, hcond⟩ := List.mem_filter.mp ha
      subst haeq
      rw [Bool.and_eq_true] at hcond
      obtain ⟨hc1, hc2⟩ := hcond
      exact ⟨hr0, a, haa, by simpa using hc2, by simpa using hc1⟩
    · rintro ⟨hrrecs, a, ha, hpl, hrec⟩
      refine ⟨r, hrrecs, List.mem_map.mpr ⟨a, List.mem_filter.mpr ⟨ha, ?_⟩, rfl⟩⟩
      simp [hpl, hrec]
  refine ⟨hmain i, ?_⟩
  intro d
  unfold Playlists.to_dict
  simp only []
  rw [List.mem_map]
  constructor
  · rintro ⟨r, hr, hd⟩
    exact ⟨r, (hmain p.id r).mp hr, hd.symm⟩
  · rintro ⟨r, hr, hd⟩
    exact ⟨r, (hmain p.id r).mpr hr, hd.symm⟩

/-- PlaylistAssignments.delete_by_playlist_id_and_recording_id (models.py
lines 317-331): SELECT the first assignment with the given playlist and
recording ids; when none exists return False with the table untouched; when
one exists the code calls DBSession.remove(playlist), but a scoped_session
object's remove method disposes of the session and accepts no record argument,
so the call raises TypeError, the transaction aborts without deleting, and the
exception propagates. -/
def PlaylistAssignments.delete_by_playlist_id_and_recording_id
    (asgns : List PlaylistAssignmentRow) (pid rid : UUID) :
    Except PyExc Bool × List PlaylistAssignmentRow :=
  match asgns.find?
      (fun a => a.playlist_id == some pid && a.recording_id == rid) with
  | none => (Except.ok false, asgns)
  | some _ => (Except.error PyExc.typeError, asgns)

/-- C10 (code bug): with no matching assignment the method returns False and
leaves the table unchanged, as the claim says; but at the failing input of a
table holding exactly the assignment (playlist 1, recording 2), the call
raises TypeError (DBSession.remove takes no record argument; DBSession.delete
was intended, as delete_by_id and remove_recording_ny_id use) and the
assignment is not removed, where the claim says it removes the assignment and
returns True. -/
theorem claim10_delete_assignment_bug :
    PlaylistAssignments.delete_by_playlist_id_and_recording_id [] 1 2 =
      (Except.ok false, []) ∧
    PlaylistAssignments.delete_by_playlist_id_and_recording_id
        [PlaylistAssignmentRow.mk 10 (some 1) 2] 1 2 =
      (Except.error PyExc.typeError, [PlaylistAssignmentRow.mk 10 (some 1) 2]) :=
  ⟨rfl, rfl⟩

/-! Users (models.py lines 126-189): display_name and email are non-null,
twitter_handle and twitter_user_id carry UNIQUE constraints, and
update_social_login implements the insert-then-update-on-conflict path.
Timestamp and foreign-key columns are not modelled. Every mutating operation
returns its Python result (or the exception it raises) together with the table
after the transaction; a constraint violation aborts the transaction, leaving
the table unchanged. -/

/-- A row of the users table. -/
structure UserRow where
  id : UUID
  display_name : String
  email : String
  twitter_handle : Option String
  twitter_user_id : Option String
  twitter_auth_token : Option String
  twitter_auth_secret : Option String
  profile_photo_url : Option String
deriving DecidableEq, Repr

/-- The constraints the users schema enforces: the primary key, and UNIQUE on
twitter_handle and on twitter_user_id. A SQL UNIQUE column constrains only
non-NULL values, so the filterMap keeps exactly the non-null entries. -/
def usersConstraintsOk (tbl : List UserRow) : Prop :=
  (tbl.map UserRow.id).Nodup ∧
    (tbl.filterMap UserRow.twitter_handle).Nodup ∧
    (tbl.filterMap UserRow.twitter_user_id).Nodup

instance usersConstraintsOkDec (tbl : List UserRow) :
    Decidable (usersConstraintsOk tbl) := by
  unfold usersConstraintsOk
  exact inferInstance

/-- C8 as literally stated: no two Users rows have the same twitter_handle and
no two have the same twitter_user_id, with NULL values compared like any
other value. -/
def usersLiteralUnique (tbl : List UserRow) : Prop :=
  List.Pairwise (fun u v : UserRow =>
    u.twitter_handle ≠ v.twitter_handle ∧
      u.twitter_user_id ≠ v.twitter_user_id) tbl

instance usersLiteralUniqueDec (tbl : List UserRow) :
    Decidable (usersLiteralUnique tbl) := by
  unfold usersLiteralUnique
  exact inferInstance

/-- CreationMixin.add as inherited by Users: build the row (uuid4() when no id
was passed), insert, commit. The commit checks the schema constraints of the
users table; on violation the transaction aborts with IntegrityError and the
table is unchanged. -/
def Users.add (tbl : List UserRow) (idArg : Option UUID) (fresh : UUID)
    (display_name email : String)
    (twitter_handle twitter_user_id twitter_auth_token twitter_auth_secret
      profile_photo_url : Option String) :
    Except PyExc UserRow × List UserRow :=
  let row : UserRow :=
    ⟨idArg.getD fresh, display_name, email,
      twitter_handle, twitter_user_id, twitter_auth_token,
      twitter_auth_secret, profile_photo_url⟩
  if usersConstraintsOk (tbl ++ [row]) then
    (Except.ok row, tbl ++ [row])
  else
    (Except.error PyExc.integrityError, tbl)

/-- The keyword arguments of an update_by_id call on Users: none means the key
is absent from kwargs (keys outside the class attribute set, which the loop
ignores, are omitted from the model). -/
structure UserKwargs where
  kwId : Option UUID
  display_name : Option String
  email : Option String
  twitter_handle : Option (Option String)
  twitter_user_id : Option (Option String)
  twitter_auth_token : Option (Option String)
  twitter_auth_secret : Option (Option String)
  profile_photo_url : Option (Option String)
deriving DecidableEq, Repr

/-- The empty kwargs. -/
def UserKwargs.none0 : UserKwargs :=
  ⟨none, none, none, none, none, none, none, none⟩

/-- The setattr loop of update_by_id applied to a Users row. -/
def applyUserKwargs (t : UserRow) (kw : UserKwargs) : UserRow :=
  ⟨kw.kwId.getD t.id, kw.display_name.getD t.display_name,
    kw.email.getD t.email, kw.twitter_handle.getD t.twitter_handle,
    kw.twitter_user_id.getD t.twitter_user_id,
    kw.twitter_auth_token.getD t.twitter_auth_token,
    kw.twitter_auth_secret.getD t.twitter_auth_secret,
    kw.profile_photo_url.getD t.profile_photo_url⟩

/-- CreationMixin.update_by_id as inherited by Users: fetch by id, overwrite
the passed attributes, commit. The commit checks the schema constraints; on
violation the transaction aborts with IntegrityError, unchanged table. -/
def Users.update_by_id (tbl : List UserRow) (i : UUID) (kw : UserKwargs) :
    Except PyExc (Option UserRow) × List UserRow :=
  match tbl.find? (fun u => u.id == i) with
  | none => (Except.ok none, tbl)
  | some t =>
      let t2 := applyUserKwargs t kw
      let tbl2 := tbl.map (fun u => if u.id == i then t2 else u)
      if usersConstraintsOk tbl2 then
        (Except.ok (some t2), tbl2)
      else
        (Except.error PyExc.integrityError, tbl)

/-- CreationMixin.delete_by_id as inherited by Users. -/
def Users.delete_by_id (tbl : List UserRow) (i : UUID) :
    Except PyExc (Option UserRow) × List UserRow :=
  match tbl.find? (fun u => u.id == i) with
  | none => (Except.ok none, tbl)
  | some t => (Except.ok (some t), tbl.eraseP (fun u => u.id == i))

/-- The auth_info mapping passed to update_social_login, with the five entries
the method reads. -/
structure AuthInfo where
  profile_name_formatted : String
  profile_photo0_value : String
  credentials_oauthAccessTokenSecret : String
  credentials_oauthAccessToken : String
  profile_account0_userid : String
deriving DecidableEq, Repr

/-- Users.update_social_login (models.py lines 145-178): try Users.add with
the social fields; if that raises IntegrityError, UPDATE twitter_user_id,
twitter_auth_token and twitter_auth_secret on every row whose twitter_handle
equals the handle (the UPDATE commit checks the schema constraints; on
violation the transaction aborts and the IntegrityError propagates uncaught),
refetch the first row with that handle and return (True, its id) — when the
refetch finds none, user.id raises AttributeError after the update was
committed. On a successful insert return (False, the new id). -/
def Users.update_social_login (tbl : List UserRow) (fresh : UUID)
    (social_uname : String) (auth : AuthInfo) (provider : String) :
    Except PyExc (Bool × UUID) × List UserRow :=
  match Users.add tbl none fresh auth.profile_name_formatted
      (social_uname ++ "@" ++ provider ++ ".social.auth")
      (some social_uname) (some auth.profile_account0_userid)
      (some auth.credentials_oauthAccessToken)
      (some auth.credentials_oauthAccessTokenSecret)
      (some auth.profile_photo0_value) with
  | (Except.ok user, tbl2) => (Except.ok (false, user.id), tbl2)
  | (Except.error PyExc.integrityError, _) =>
      let tbl2 := tbl.map (fun u =>
        if u.twitter_handle == some social_uname then
          ⟨u.id, u.display_name, u.email, u.twitter_handle,
            some auth.profile_account0_userid,
            some auth.credentials_oauthAccessToken,
            some auth.credentials_oauthAccessTokenSecret,
            u.profile_photo_url⟩
        else u)
      if usersConstraintsOk tbl2 then
        match tbl2.find? (fun u => u.twitter_handle == some social_uname) with
        | some user => (Except.ok (true, user.id), tbl2)
        | none => (Except.error PyExc.attributeError, tbl2)
      else
        (Except.error PyExc.integrityError, tbl)
  | (Except.error e, _) => (Except.error e, tbl)

/-- Helper: appending one element keeps a list duplicate-free exactly when the
element is new. -/
theorem nodup_append_single {β : Type} (l : List β) (a : β) :
    (l ++ [a]).Nodup ↔ l.Nodup ∧ a ∉ l := by
  rw [List.nodup_append]
  constructor
  · rintro ⟨h1, _, h3⟩
    exact ⟨h1, fun hm => h3 hm (by simp)⟩
  · rintro ⟨h1, h2⟩
    refine ⟨h1, by simp, ?_⟩
    intro x hx hxa
    rw [List.mem_singleton] at hxa
    subst hxa
    exact h2 hx

/-- Helper: Users.add preserves the schema constraints (it either commits a
checked table or aborts). -/
theorem usersOk_add (tbl : List UserRow) (idArg : Option UUID) (fresh : UUID)
    (dn em : String) (th tu tat tas pp : Option String)
    (h : usersConstraintsOk tbl) :
    usersConstraintsOk (Users.add tbl idArg fresh dn em th tu tat tas pp).2 := by
  simp only [Users.add]
  split
  · rename_i hc
    exact hc
  · exact h

/-- Helper: Users.update_by_id preserves the schema constraints. -/
theorem usersOk_update (tbl : List UserRow) (i : UUID) (kw : UserKwargs)
    (h : usersConstraintsOk tbl) :
    usersConstraintsOk (Users.update_by_id tbl i kw).2 := by
  simp only [Users.update_by_id]
  split
  · exact h
  · split
    · rename_i hc
      exact hc
    · exact h

/-- Helper: Users.delete_by_id preserves the schema constraints. -/
theorem usersOk_delete (tbl : List UserRow) (i : UUID)
    (h : usersConstraintsOk tbl) :
    usersConstraintsOk (Users.delete_by_id tbl i).2 := by
  unfold Users.delete_by_id
  split
  · exact h
  · obtain ⟨h1, h2, h3⟩ := h
    refine ⟨?_, ?_, ?_⟩
    · exact List.Nodup.sublist
        (List.Sublist.map UserRow.id (List.eraseP_sublist tbl)) h1
    · exact List.Nodup.sublist
        (List.Sublist.filterMap UserRow.twitter_handle
          (List.eraseP_sublist tbl)) h2
    · exact List.Nodup.sublist
        (List.Sublist.filterMap UserRow.twitter_user_id
          (List.eraseP_sublist tbl)) h3

/-- Helper: Users.update_social_login preserves the schema constraints on
every path (insert, fallback update, and every error). -/
theorem usersOk_social (tbl : List UserRow) (fresh : UUID) (u : String)
    (auth : AuthInfo) (prov : String) (h : usersConstraintsOk tbl) :
    usersConstraintsOk (Users.update_social_login tbl fresh u auth prov).2 := by
  simp only [Users.update_social_login]
  split
  · rename_i user tbl2 heq
    have hadd := usersOk_add tbl none fresh auth.profile_name_formatted
      (u ++ "@" ++ prov ++ ".social.auth") (some u)
      (some auth.profile_account0_userid)
      (some auth.credentials_oauthAccessToken)
      (some auth.credentials_oauthAccessTokenSecret)
      (some auth.profile_photo0_value) h
    rw [heq] at hadd
    exact hadd
  · split
    · rename_i hc
      split
      · exact hc
      · exact hc
    · exact h
  · exact h

/-- The states of the users table reachable through the public operations,
starting from the empty table. -/
inductive UsersReachable : List UserRow → Prop where
  | empty : UsersReachable []
  | step_add : ∀ tbl idArg fresh dn em th tu tat tas pp,
      UsersReachable tbl →
      UsersReachable (Users.add tbl idArg fresh dn em th tu tat tas pp).2
  | step_update : ∀ tbl i kw, UsersReachable tbl →
      UsersReachable (Users.update_by_id tbl i kw).2
  | step_delete : ∀ tbl i, UsersReachable tbl →
      UsersReachable (Users.delete_by_id tbl i).2
  | step_social : ∀ tbl fresh u auth prov, UsersReachable tbl →
      UsersReachable (Users.update_social_login tbl fresh u auth prov).2

/-- C8 counterexample to the claim as stated: inserting two users without
twitter credentials is reachable (both inserts commit, since a SQL UNIQUE
column constrains only non-NULL values), yet the two rows carry the same
twitter_handle (NULL) and the same twitter_user_id (NULL). -/
theorem claim8_counterexample :
    UsersReachable
      [UserRow.mk 1 "a" "a@x" none none none none none,
        UserRow.mk 2 "b" "b@x" none none none none none] ∧
      ¬ usersLiteralUnique
        [UserRow.mk 1 "a" "a@x" none none none none none,
          UserRow.mk 2 "b" "b@x" none none none none none] := by
  constructor
  · have h1 := UsersReachable.step_add [] (some 1) 0 "a" "a@x"
      none none none none none UsersReachable.empty
    have e1 : (Users.add [] (some 1) 0 "a" "a@x"
        none none none none none).2 =
        [UserRow.mk 1 "a" "a@x" none none none none none] := by decide
    rw [e1] at h1
    have h2 := UsersReachable.step_add
      [UserRow.mk 1 "a" "a@x" none none none none none]
      (some 2) 0 "b" "b@x" none none none none none h1
    have e2 : (Users.add [UserRow.mk 1 "a" "a@x" none none none none none]
        (some 2) 0 "b" "b@x" none none none none none).2 =
        [UserRow.mk 1 "a" "a@x" none none none none none,
          UserRow.mk 2 "b" "b@x" none none none none none] := by decide
    rw [e2] at h2
    exact h2
  · decide

/-- C8 amended: in every reachable state of the users table, no two rows share
a non-null twitter_handle and no two rows share a non-null twitter_user_id
(and ids are distinct); every operation preserves this, aborting with the
uniqueness violation when a commit would break it. -/
theorem claim8_users_uniqueness (tbl : List UserRow) (h : UsersReachable tbl) :
    usersConstraintsOk tbl := by
  induction h with
  | empty => exact ⟨List.nodup_nil, List.nodup_nil, List.nodup_nil⟩
  | step_add tbl idArg fresh dn em th tu tat tas pp _ ih =>
      exact usersOk_add tbl idArg fresh dn em th tu tat tas pp ih
  | step_update tbl i kw _ ih => exact usersOk_update tbl i kw ih
  | step_delete tbl i _ ih => exact usersOk_delete tbl i ih
  | step_social tbl fresh u auth prov _ ih =>
      exact usersOk_social tbl fresh u auth prov ih

/-- Witness for C8 at a concrete reachable state. -/
theorem claim8_witness :
    UsersReachable (Users.add [] (some 1) 0 "a" "a@x"
        none none none none none).2 ∧
      usersConstraintsOk (Users.add [] (some 1) 0 "a" "a@x"
        none none none none none).2 :=
  ⟨UsersReachable.step_add [] (some 1) 0 "a" "a@x"
      none none none none none UsersReachable.empty,
    claim8_users_uniqueness _
      (UsersReachable.step_add [] (some 1) 0 "a" "a@x"
        none none none none none UsersReachable.empty)⟩

/-- The Users row inserted by the Users.add call inside update_social_login
(models.py lines 148-158): email is handle@provider.social.auth, display name
and photo and credentials and user id come from auth_info, the handle is the
social username. -/
def socialRow (fresh : UUID) (uname provider : String) (a : AuthInfo) :
    UserRow :=
  ⟨fresh, a.profile_name_formatted,
    uname ++ "@" ++ provider ++ ".social.auth", some uname,
    some a.profile_account0_userid, some a.credentials_oauthAccessToken,
    some a.credentials_oauthAccessTokenSecret, some a.profile_photo0_value⟩

/-- The effect on one row of the fallback UPDATE of update_social_login
(models.py lines 161-172): twitter_user_id, twitter_auth_token and
twitter_auth_secret are overwritten from auth_info, everything else kept. -/
def socialUpdatedRow (u : UserRow) (a : AuthInfo) : UserRow :=
  ⟨u.id, u.display_name, u.email, u.twitter_handle,
    some a.profile_account0_userid, some a.credentials_oauthAccessToken,
    some a.credentials_oauthAccessTokenSecret, u.profile_photo_url⟩

/-- Helper: a map that fixes every element of a list is the identity on it. -/
theorem map_id_of_fixed {β : Type} (g : β → β) (l : List β)
    (h : ∀ a ∈ l, g a = a) : l.map g = l := by
  induction l with
  | nil => rfl
  | cons a l2 ih =>
    rw [List.map_cons, h a (by simp), ih (fun x hx => h x (by simp [hx]))]

/-- Helper: appended ids stay duplicate-free when the new id is new. -/
theorem map_id_append_nodup (tbl : List UserRow) (r : UserRow)
    (hnd : (tbl.map UserRow.id).Nodup) (hmem : r.id ∉ tbl.map UserRow.id) :
    ((tbl ++ [r]).map UserRow.id).Nodup := by
  simp only [List.map_append, List.map_cons, List.map_nil]
  rw [nodup_append_single]
  exact ⟨hnd, hmem⟩

/-- Helper: an appended non-null unique-column value stays duplicate-free when
no stored row carries it. -/
theorem filterMap_append_nodup (tbl : List UserRow)
    (g : UserRow → Option String) (r : UserRow) (v : String)
    (hnd : (tbl.filterMap g).Nodup) (hr : g r = some v)
    (hmem : ∀ u ∈ tbl, g u ≠ some v) :
    ((tbl ++ [r]).filterMap g).Nodup := by
  rw [List.filterMap_append]
  have hsing : List.filterMap g [r] = [v] := by
    simp [hr]
  rw [hsing, nodup_append_single]
  refine ⟨hnd, fun hm => ?_⟩
  obtain ⟨u, hu, hueq⟩ := List.mem_filterMap.mp hm
  exact hmem u hu hueq

/-- C2: from a table where the handle is not yet present (and the auth user
ids and the fresh uuid are unused, as in the intended scenario), the first
update_social_login call inserts the social row and returns (False, new id);
the second call with the same handle hits the uniqueness violation on its
insert attempt, falls back to overwriting twitter_user_id, twitter_auth_token
and twitter_auth_secret of the existing row in place, and returns (True, the
existing id). -/
theorem claim2_update_social_login (tbl : List UserRow) (fresh1 fresh2 : UUID)
    (uname provider : String) (a1 a2 : AuthInfo)
    (hok : usersConstraintsOk tbl)
    (hh : ∀ u ∈ tbl, u.twitter_handle ≠ some uname)
    (hu1 : ∀ u ∈ tbl, u.twitter_user_id ≠ some a1.profile_account0_userid)
    (hu2 : ∀ u ∈ tbl, u.twitter_user_id ≠ some a2.profile_account0_userid)
    (hf : fresh1 ∉ tbl.map UserRow.id) :
    Users.update_social_login tbl fresh1 uname a1 provider =
      (Except.ok (false, fresh1),
        tbl ++ [socialRow fresh1 uname provider a1]) ∧
    Users.update_social_login (tbl ++ [socialRow fresh1 uname provider a1])
        fresh2 uname a2 provider =
      (Except.ok (true, fresh1),
        tbl ++ [socialUpdatedRow (socialRow fresh1 uname provider a1) a2]) := by
  have hconstr1 :
      usersConstraintsOk (tbl ++ [socialRow fresh1 uname provider a1]) := by
    refine ⟨?_, ?_, ?_⟩
    · exact map_id_append_nodup tbl _ hok.1 hf
    · exact filterMap_append_nodup tbl UserRow.twitter_handle _ uname
        hok.2.1 rfl hh
    · exact filterMap_append_nodup tbl UserRow.twitter_user_id _
        a1.profile_account0_userid hok.2.2 rfl hu1
  have hadd1 : Users.add tbl none fresh1 a1.profile_name_formatted
      (uname ++ "@" ++ provider ++ ".social.auth") (some uname)
      (some a1.profile_account0_userid)
      (some a1.credentials_oauthAccessToken)
      (some a1.credentials_oauthAccessTokenSecret)
      (some a1.profile_photo0_value) =
      (Except.ok (socialRow fresh1 uname provider a1),
        tbl ++ [socialRow fresh1 uname provider a1]) := by
    simp only [Users.add]
    show (if usersConstraintsOk (tbl ++ [socialRow fresh1 uname provider a1])
        then (Except.ok (socialRow fresh1 uname provider a1),
          tbl ++ [socialRow fresh1 uname provider a1])
        else (Except.error PyExc.integrityError, tbl)) = _
    rw [if_pos hconstr1]
  refine ⟨?_, ?_⟩
  · unfold Users.update_social_login
    rw [hadd1]
    rfl
  · have hfail : ¬ usersConstraintsOk
        ((tbl ++ [socialRow fresh1 uname provider a1]) ++
          [socialRow fresh2 uname provider a2]) := by
      intro hcon
      obtain ⟨_, hhand, _⟩ := hcon
      have heq : ((tbl ++ [socialRow fresh1 uname provider a1]) ++
            [socialRow fresh2 uname provider a2]).filterMap
            UserRow.twitter_handle =
          (tbl.filterMap UserRow.twitter_handle ++ [uname]) ++ [uname] := by
        simp [List.filterMap_append, socialRow]
      rw [heq, nodup_append_single] at hhand
      exact hhand.2 (List.mem_append_right _ (by simp))
    have hadd2 : Users.add (tbl ++ [socialRow fresh1 uname provider a1])
        none fresh2 a2.profile_name_formatted
        (uname ++ "@" ++ provider ++ ".social.auth") (some uname)
        (some a2.profile_account0_userid)
        (some a2.credentials_oauthAccessToken)
        (some a2.credentials_oauthAccessTokenSecret)
        (some a2.profile_photo0_value) =
        (Except.error PyExc.integrityError,
          tbl ++ [socialRow fresh1 uname provider a1]) := by
      simp only [Users.add]
      show (if usersConstraintsOk
            ((tbl ++ [socialRow fresh1 uname provider a1]) ++
              [socialRow fresh2 uname provider a2])
          then (Except.ok (socialRow fresh2 uname provider a2),
            (tbl ++ [socialRow fresh1 uname provider a1]) ++
              [socialRow fresh2 uname provider a2])
          else (Except.error PyExc.integrityError,
            tbl ++ [socialRow fresh1 uname provider a1])) = _
      rw [if_neg hfail]
    have hmap : (tbl ++ [socialRow fresh1 uname provider a1]).map (fun u =>
        if u.twitter_handle == some uname then
          ⟨u.id, u.display_name, u.email, u.twitter_handle,
            some a2.profile_account0_userid,
            some a2.credentials_oauthAccessToken,
            some a2.credentials_oauthAccessTokenSecret,
            u.profile_photo_url⟩
        else u) =
        tbl ++ [socialUpdatedRow (socialRow fresh1 uname provider a1) a2] := by
      rw [List.map_append]
      have h1 : tbl.map (fun u =>
          if u.twitter_handle == some uname then
            (⟨u.id, u.display_name, u.email, u.twitter_handle,
              some a2.profile_account0_userid,
              some a2.credentials_oauthAccessToken,
              some a2.credentials_oauthAccessTokenSecret,
              u.profile_photo_url⟩ : UserRow)
          else u) = tbl := by
        apply map_id_of_fixed
        intro u hu
        have hb : (u.twitter_handle == some uname : Bool) = false := by
          simp [hh u hu]
        simp [hb]
      rw [h1]
      simp [socialRow, socialUpdatedRow]
    have hconstr2 : usersConstraintsOk
        (tbl ++ [socialUpdatedRow (socialRow fresh1 uname provider a1) a2]) := by
      refine ⟨?_, ?_, ?_⟩
      · exact map_id_append_nodup tbl _ hok.1 hf
      · exact filterMap_append_nodup tbl UserRow.twitter_handle _ uname
          hok.2.1 rfl hh
      · exact filterMap_append_nodup tbl UserRow.twitter_user_id _
          a2.profile_account0_userid hok.2.2 rfl hu2
    have hfind : (tbl ++
          [socialUpdatedRow (socialRow fresh1 uname provider a1) a2]).find?
          (fun u => u.twitter_handle == some uname) =
        some (socialUpdatedRow (socialRow fresh1 uname provider a1) a2) := by
      rw [find_append_of_none]
      · simp [socialUpdatedRow, socialRow]
      · rw [List.find?_eq_none]
        intro u hu hp
        exact hh u hu (by simpa using hp)
    unfold Users.update_social_login
    rw [hadd2]
    show (if usersConstraintsOk ((tbl ++
          [socialRow fresh1 uname provider a1]).map (fun u =>
            if u.twitter_handle == some uname then
              ⟨u.id, u.display_name, u.email, u.twitter_handle,
                some a2.profile_account0_userid,
                some a2.credentials_oauthAccessToken,
                some a2.credentials_oauthAccessTokenSecret,
                u.profile_photo_url⟩
            else u)) then _ else _) = _
    rw [hmap, if_pos hconstr2, hfind]
    rfl


/-- Witness for C2: two calls with the handle h from the empty table, with
distinct auth_info payloads. -/
theorem claim2_witness :
    Users.update_social_login [] 1 "h"
        (AuthInfo.mk "N1" "P1" "S1" "T1" "U1") "twitter" =
      (Except.ok (false, 1),
        [] ++ [socialRow 1 "h" "twitter"
          (AuthInfo.mk "N1" "P1" "S1" "T1" "U1")]) ∧
    Users.update_social_login
        ([] ++ [socialRow 1 "h" "twitter"
          (AuthInfo.mk "N1" "P1" "S1" "T1" "U1")]) 2 "h"
        (AuthInfo.mk "N2" "P2" "S2" "T2" "U2") "twitter" =
      (Except.ok (true, 1),
        [] ++ [socialUpdatedRow
          (socialRow 1 "h" "twitter" (AuthInfo.mk "N1" "P1" "S1" "T1" "U1"))
          (AuthInfo.mk "N2" "P2" "S2" "T2" "U2")]) :=
  claim2_update_social_login [] 1 2 "h" "twitter"
    (AuthInfo.mk "N1" "P1" "S1" "T1" "U1")
    (AuthInfo.mk "N2" "P2" "S2" "T2" "U2")
    (by decide) (by simp) (by simp) (by simp) (by simp)

end Mediapublic
